import Mathlib

/-!
Shallow embedding of the `plover_console_ui` repository (commands.py, tape.py):
the command-tree dispatcher and the paper-tape stroke renderer, together with
theorems checking the natural-language specification against the code.

Machine integers do not occur; Python strings become `String`, Python lists
become `List`, raising code returns an explicit error component.
-/

namespace PloverConsoleUi

/-- Python `str.capitalize()`: first character upper-cased, all remaining
characters lower-cased. -/
def pyCapitalize (s : String) : String :=
  match s.data with
  | [] => ""
  | c :: cs => String.mk (c.toUpper :: cs.map Char.toLower)

/-- commands.py line 27: `"".join(["-" for _ in self.name])` — one dash per
character of the name. -/
def dashUnderline (s : String) : String :=
  String.mk (s.data.map (fun _ => '-'))

/-- Python `sep.join(words)`. -/
def joinWith (sep : String) : List String → String
  | [] => ""
  | [w] => w
  | w :: ws => w ++ sep ++ joinWith sep ws

/-- Python `f"{x}"` applied to a string attribute that may be `None`. -/
def pyStrOpt : Option String → String
  | some s => s
  | none => "None"

/-- Python `f"{b}"` applied to a bool. -/
def pyBoolStr : Bool → String
  | true => "True"
  | false => "False"

/-- The engine-config keys this UI writes (spec section 6).  An assignment
`engine.config = {k: v}` is a partial update: it merges the given key and keeps
the other keys. -/
structure EngineConfig where
  show_stroke_display : Bool
  show_suggestions_display : Bool
  system_name : String
  machine_type : String
deriving DecidableEq

/-- The externally owned state the command handlers mutate: the engine's
`output` flag and its config. -/
structure St where
  engineOutput : Bool
  engineConfig : EngineConfig
deriving DecidableEq

/-- A concrete starting state used by witnesses. -/
def st0 : St :=
  { engineOutput := false
  , engineConfig :=
    { show_stroke_display := false
    , show_suggestions_display := false
    , system_name := "english"
    , machine_type := "Keyboard" } }

/-- commands.py 14-18 (`Command.__init__`): a command-tree node carries `name`
(`None` for the root built in `build_commands`), its `__doc__`, and
`sub_commands`.  Subclasses that override `handle` carry that override as an
explicit transformer of the external state returning (state, output lines,
returned bool). -/
inductive Cmd : Type where
  | node (name : Option String) (doc : Option String) (children : List Cmd)
      (override : Option (List String → St → St × List String × Bool))

def Cmd.name : Cmd → Option String
  | .node n _ _ _ => n

def Cmd.doc : Cmd → Option String
  | .node _ d _ _ => d

def Cmd.children : Cmd → List Cmd
  | .node _ _ cs _ => cs

def Cmd.override : Cmd → Option (List String → St → St × List String × Bool)
  | .node _ _ _ ov => ov

/-- commands.py 25-27: the header `Command.handle` prints when `self.name` is
truthy (Python truthiness: `None` and the empty string print nothing). -/
def headerLines : Option String → List String
  | none => []
  | some n => if n.isEmpty then [] else [pyCapitalize n, dashUnderline n]

/-- commands.py 32-34: one line per sub-command, `f"{sc.name} - {sc.__doc__}"`,
guarded by `if self.sub_commands:`. -/
def listingLines (cs : List Cmd) : List String :=
  if cs.isEmpty then []
  else cs.map (fun c => pyStrOpt (Cmd.name c) ++ " - " ++ pyStrOpt (Cmd.doc c))

/-- commands.py 24-35, `Command.handle`: the generic handler.  With truthy
`words` it prints `"Unsupported command: " + " ".join(words)`; with falsy
`words` it lists the sub-commands; either way it returns `False`. -/
def genericHandle (nm : Option String) (cs : List Cmd) (tokens : List String) :
    List String × Bool :=
  if tokens.isEmpty then (headerLines nm ++ listingLines cs, false)
  else (headerLines nm ++ ["Unsupported command: " ++ joinWith " " tokens], false)

/-- A node's `handle`: the subclass override when present, otherwise the
generic `Command.handle`; the generic handler never touches external state. -/
def Cmd.handle (c : Cmd) (tokens : List String) (s : St) : St × List String × Bool :=
  match Cmd.override c with
  | some f => f tokens s
  | none =>
    let r := genericHandle (Cmd.name c) (Cmd.children c) tokens
    (s, r.1, r.2)

/-- Modelled from the spec: the Dispatcher component (spec sections 2 and 4.1,
"entry point that walks the tree against a tokenized input line, delegating
deeper as names match, falling back to a not-found/help listing otherwise") is
code of this repository that is not among the provided source files; only its
fallback, `Command.handle` (commands.py 24-35), is.  While the first remaining
token equals the name of a child (exact string, first match in declared order)
the dispatcher descends to that child with the remaining tokens; otherwise the
current node's `handle` runs on the remaining tokens. -/
def handleFull : Cmd → List String → St → St × List String × Bool
  | c, [], s => Cmd.handle c [] s
  | c, t :: ts, s =>
    match List.find? (fun ch => Cmd.name ch == some t) (Cmd.children c) with
    | some ch => handleFull ch ts s
    | none => Cmd.handle c (t :: ts) s

/-- commands.py 183-186, `SystemSetterCommand.handle`. -/
def systemSetterHandle (name : String) (words : List String) (s : St) :
    St × List String × Bool :=
  ({ s with engineConfig := { s.engineConfig with system_name := name } },
   ["Setting system to " ++ name], true)

/-- commands.py 226-229, `MachineSetterCommand.handle`. -/
def machineSetterHandle (name : String) (words : List String) (s : St) :
    St × List String × Bool :=
  ({ s with engineConfig := { s.engineConfig with machine_type := name } },
   ["Setting machine to " ++ name], false)

/-- commands.py 144-152, `ToggleOutputCommand.handle`: flips `engine.output`
and reports the new value. -/
def toggleOutputHandle (s : St) : St × List String × Bool :=
  let s' := { s with engineOutput := !s.engineOutput }
  (s', ["Output: " ++ (if s'.engineOutput then "Enabled" else "Disabled")], true)

/-- commands.py 102-106, `ToggleTapeCommand.handle`: `toggler` is the injected
`layout.toggle_tape` closure, modelled as a transformer of its own hidden state
`τ` that returns the new visibility; the handler writes that value into
`engine.config["show_stroke_display"]` and reports it. -/
def toggleTapeHandle {τ : Type} (toggler : τ → τ × Bool) (t : τ) (s : St) :
    (τ × St) × List String × Bool :=
  let r := toggler t
  ((r.1, { s with engineConfig := { s.engineConfig with show_stroke_display := r.2 } }),
   ["Show tape: " ++ pyBoolStr r.2], true)

/-- commands.py 117-121, `ToggleSuggestionsCommand.handle`. -/
def toggleSuggestionsHandle {τ : Type} (toggler : τ → τ × Bool) (t : τ) (s : St) :
    (τ × St) × List String × Bool :=
  let r := toggler t
  ((r.1, { s with engineConfig := { s.engineConfig with show_suggestions_display := r.2 } }),
   ["Show suggestions: " ++ pyBoolStr r.2], true)

/-- The state `ColorCommand` touches: the live application style (the color it
was last successfully set to) and the config store's `"fg"` entry. -/
structure ColorSt where
  appStyle : Option String
  fg : Option String
deriving DecidableEq

/-- commands.py 52-60, `ColorCommand.handle`: with truthy `words` it applies
`style_colored(words[0])` to the live app (which raises on a bad color,
modelled by the `valid` predicate of the external style machinery), and only
then writes the color under `"fg"` in the config store; the error component
records a raised exception, in which case the returned state is the unchanged
input state (the raise happens during the style assignment, before any
mutation). -/
def colorHandle (valid : String → Bool) (st : ColorSt) (words : List String) :
    ColorSt × Except Unit Bool :=
  match words with
  | [] => (st, .ok false)
  | color :: _ =>
    if valid color then
      ({ st with appStyle := some color, fg := some color }, .ok true)
    else (st, .error ())

/-- commands.py 202-210 (`MachineOptionSetterCommand.__init__`): the instance
attributes such a node ends up with.  Unlike every other `Command` subclass its
`__init__` does not call `super().__init__`, so the attributes `name`,
`output` and `sub_commands` are never bound; `outputBound` records whether
`self.output` was ever assigned. -/
structure MachineOptionSetter (Cfg : Type) where
  doc : String
  getter : Cfg → String
  setter : Cfg → String → Cfg
  outputBound : Bool

/-- commands.py 203-210: `__init__` stores `__doc__`, the partially applied
`getter` and `setter` — and nothing else. -/
def mkMachineOptionSetter {Cfg : Type} (doc : String) (g : Cfg → String)
    (st : Cfg → String → Cfg) : MachineOptionSetter Cfg :=
  { doc := doc, getter := g, setter := st, outputBound := false }

/-- commands.py 212-215, `MachineOptionSetterCommand.handle`: its first
statement is `self.output("current: " + self.getter())`; looking up
`self.output` raises `AttributeError` when the attribute was never bound,
before the getter is called, anything is printed, or the setter runs (the
error component records the raise; the returned config is then the unchanged
input).  Were `output` bound, it would print the current value, write
`"".join(words)` through the setter and return `True`. -/
def MachineOptionSetter.handle {Cfg : Type} (c : MachineOptionSetter Cfg)
    (cfg : Cfg) (words : List String) : Cfg × Except Unit (List String × Bool) :=
  if c.outputBound then
    (c.setter cfg (joinWith "" words), .ok (["current: " ++ c.getter cfg], true))
  else (cfg, .error ())

/-- commands.py 218-224, `MachineSetterCommand.__init__`: named after the
machine, `__doc__ = f"sets machine to {machine_name}"`, one child — the
`MachineOptionsCommand` node (name `"options"`, class docstring
`"machine options"`) whose own children are the machine's option-setter nodes,
passed in here abstractly (those nodes are modelled by `MachineOptionSetter`
above, since they carry an error channel a `Cmd` override cannot). -/
def mkMachineSetterNode (m : String) (optionChildren : List Cmd) : Cmd :=
  Cmd.node (some m) (some ("sets machine to " ++ m))
    [Cmd.node (some "options") (some "machine options") optionChildren none]
    (some (fun ws s => machineSetterHandle m ws s))

/-- commands.py 155-163, `MachineCommand.__init__`: one `MachineSetterCommand`
per entry of `registry.list_plugins("machine")`, in registry enumeration
order; the registry is passed in as the list of plugin names with the
option-setter children of each. -/
def mkMachineCommand (machines : List (String × List Cmd)) : Cmd :=
  Cmd.node (some "machine") (some "machine commands")
    (machines.map (fun p => mkMachineSetterNode p.1 p.2)) none

/-- commands.py 177-181, `SystemSetterCommand.__init__`: named after the
system, `__doc__ = f"sets system to {system_name}"`, no children. -/
def mkSystemSetterNode (n : String) : Cmd :=
  Cmd.node (some n) (some ("sets system to " ++ n)) []
    (some (fun ws s => systemSetterHandle n ws s))

/-- commands.py 166-174, `SystemCommand.__init__`. -/
def mkSystemCommand (systems : List String) : Cmd :=
  Cmd.node (some "system") (some "system commands")
    (systems.map mkSystemSetterNode) none

/-- The three-level tree of spec section 8 property 3 (root → "configure" →
"machine" → machine name), built as `build_commands` builds it (commands.py
249-291): a root with `name=None` and no docstring whose `configure` child
(class docstring "configuration commands") holds the machine and system
subtrees; the registry here lists machines `A` and `B` with no options. -/
def exampleRoot : Cmd :=
  Cmd.node none none
    [Cmd.node (some "configure") (some "configuration commands")
      [mkMachineCommand [("A", []), ("B", [])], mkSystemCommand []] none]
    none

/-- Python `s.strip("-")`: remove every leading and trailing `'-'`. -/
def stripDashes (s : String) : String :=
  String.mk (((s.data.dropWhile (fun c => c == '-')).reverse.dropWhile
    (fun c => c == '-')).reverse)

/-- The pieces of the `plover.system` module that tape.py reads: the ordered
key names `KEYS`, the values of the `NUMBERS` mapping, and the key-to-position
index `KEY_ORDER` (a dict, modelled as an association list). -/
structure StenoSystem where
  KEYS : List String
  NUMBER_VALUES : List String
  KEY_ORDER : List (String × Nat)

/-- Python `d[k]` on the `KEY_ORDER` dict: the first binding of `k`, if any. -/
def lookupOrder (m : List (String × Nat)) (k : String) : Option Nat :=
  (m.find? (fun p => p.1 == k)).map (fun p => p.2)

/-- tape.py 19-21, the attributes `Tape.on_config_changed` stores:
`_all_keys` (a string, hence a list of characters), `_all_keys_filler` and
`_numbers`. -/
structure TapeLayout where
  all_keys : List Char
  all_keys_filler : List String
  numbers : List String
deriving DecidableEq

/-- tape.py 19: `"".join(key.strip("-") for key in KEYS)`, as its character
list. -/
def allKeysOf (sys : StenoSystem) : List Char :=
  (sys.KEYS.map (fun k => (stripDashes k).data)).flatten

/-- tape.py 19-21: `_all_keys = "".join(key.strip("-") for key in KEYS)`,
`_all_keys_filler = [" " * wcwidth(k) for k in _all_keys]`,
`_numbers = set(NUMBERS.values())`; `wc` is the external `wcwidth`. -/
def computeLayout (wc : Char → Nat) (sys : StenoSystem) : TapeLayout :=
  { all_keys := allKeysOf sys
  , all_keys_filler := (allKeysOf sys).map (fun k => String.mk (List.replicate (wc k) ' '))
  , numbers := sys.NUMBER_VALUES }

/-- tape.py 9-15: the mutable state of a `Tape` — the layout attributes (absent
until the first system-change notification), the display-area width, and the
text buffer the rendered rows are appended to. -/
structure TapeState where
  layout : Option TapeLayout
  width : Option Nat
  buffer : List String
deriving DecidableEq

/-- tape.py 17-22, `Tape.on_config_changed`: when the update carries the key
`"system_name"` the whole layout is recomputed from the current system and the
container width becomes `len(_all_keys) + 1`; otherwise nothing happens. -/
def on_config_changed (wc : Char → Nat) (sys : StenoSystem) (st : TapeState)
    (update : List String) : TapeState :=
  if "system_name" ∈ update then
    let L := computeLayout wc sys
    { st with layout := some L, width := some (L.all_keys.length + 1) }
  else st

/-- tape.py 27-28: `if any(key in self._numbers for key in keys):
keys.append("#")`. -/
def extendNum (numbers : List String) (keys : List String) : List String :=
  if keys.any (fun k => numbers.contains k) then keys ++ ["#"] else keys

/-- tape.py 29-31, the loop of `Tape.on_stroked`: for each key,
`index = system.KEY_ORDER[key]` (raising `KeyError` when `key` is absent) and
`text[index] = self._all_keys[index]` (raising `IndexError` when the index is
out of range of either); a raise ends the loop with nothing emitted. -/
def setCells (sys : StenoSystem) (all : List Char) :
    List String → List String → Except Unit (List String)
  | cells, [] => .ok cells
  | cells, k :: ks =>
    match lookupOrder sys.KEY_ORDER k with
    | none => .error ()
    | some i =>
      match all[i]? with
      | none => .error ()
      | some g =>
        if i < cells.length then setCells sys all (cells.set i (String.mk [g])) ks
        else .error ()

/-- tape.py 24-32, `Tape.on_stroked`: `sys` is the ambient `plover.system`
module at stroke time.  The row starts as a copy of `_all_keys_filler`
(`TypeError` when no layout was ever installed, since the attribute is still
`None`), the numeric indicator is appended when any engaged key is numeric,
each engaged key's cell is set to its glyph, and only then is the joined row
appended to the buffer.  The error component records a raise; the state
returned alongside an error is the unchanged input state, because the method
mutates nothing before the raise (the loop mutates only the local `text`). -/
def on_stroked (sys : StenoSystem) (st : TapeState) (stroke : List String) :
    TapeState × Except Unit Unit :=
  match st.layout with
  | none => (st, .error ())
  | some L =>
    let keys := extendNum L.numbers stroke
    match setCells sys L.all_keys L.all_keys_filler keys with
    | .ok cells => ({ st with buffer := st.buffer ++ [String.join cells] }, .ok ())
    | .error e => (st, .error e)

/-- The row claim C5 describes, stated directly: one cell per position of
`_all_keys`; the glyph at every position some engaged key maps to, that
glyph's blank filler everywhere else. -/
def expectedRow (wc : Char → Nat) (sys : StenoSystem) (keys : List String) :
    List String :=
  (List.range (allKeysOf sys).length).map (fun j =>
    if keys.any (fun k => lookupOrder sys.KEY_ORDER k == some j) then
      String.mk [(allKeysOf sys).getD j ' ']
    else (computeLayout wc sys).all_keys_filler.getD j "")

/-- Decidable form of "every engaged key is present in the key-order index,
with a position inside the layout". -/
def keysKnown (sys : StenoSystem) (n : Nat) (ks : List String) : Bool :=
  ks.all (fun k =>
    match lookupOrder sys.KEY_ORDER k with
    | some i => decide (i < n)
    | none => false)

theorem keysKnown_spec {sys : StenoSystem} {n : Nat} {ks : List String}
    (h : keysKnown sys n ks = true) :
    ∀ k ∈ ks, ∃ i, lookupOrder sys.KEY_ORDER k = some i ∧ i < n := by
  intro k hk
  have hall := List.all_eq_true.mp h k hk
  cases hord : lookupOrder sys.KEY_ORDER k with
  | none => rw [hord] at hall; cases hall
  | some i =>
    rw [hord] at hall
    exact ⟨i, rfl, of_decide_eq_true hall⟩

theorem beq_some_nat (i j : Nat) : ((some i : Option Nat) == some j) = decide (i = j) := by
  by_cases h : i = j <;> simp [h]

theorem setCells_ok_length (sys : StenoSystem) (all : List Char) :
    ∀ (ks cells res : List String),
    setCells sys all cells ks = .ok res → res.length = cells.length := by
  intro ks
  induction ks with
  | nil =>
    intro cells res h
    simp only [setCells] at h
    cases h
    rfl
  | cons k ks ih =>
    intro cells res h
    cases hord : lookupOrder sys.KEY_ORDER k with
    | none => simp [setCells, hord] at h
    | some i =>
      cases hget : all[i]? with
      | none => simp [setCells, hord, hget] at h
      | some g =>
        by_cases hlt : i < cells.length
        · simp only [setCells, hord, hget, if_pos hlt] at h
          have := ih _ _ h
          rw [this, List.length_set]
        · simp [setCells, hord, hget, hlt] at h

theorem setCells_error_of_missing (sys : StenoSystem) (all : List Char) :
    ∀ (ks cells : List String),
    (∃ k ∈ ks, lookupOrder sys.KEY_ORDER k = none) →
    setCells sys all cells ks = .error () := by
  intro ks
  induction ks with
  | nil =>
    intro cells h
    obtain ⟨k, hk, _⟩ := h
    cases hk
  | cons k0 ks ih =>
    intro cells h
    obtain ⟨k, hk, hnone⟩ := h
    cases hord : lookupOrder sys.KEY_ORDER k0 with
    | none => simp [setCells, hord]
    | some i =>
      have hkmem : k ∈ ks := by
        rcases List.mem_cons.mp hk with h1 | h1
        · subst h1; rw [hord] at hnone; cases hnone
        · exact h1
      cases hget : all[i]? with
      | none => simp [setCells, hord, hget]
      | some g =>
        by_cases hlt : i < cells.length
        · simp only [setCells, hord, hget, if_pos hlt]
          exact ih _ ⟨k, hkmem, hnone⟩
        · simp [setCells, hord, hget, hlt]

theorem setCells_ok_spec (sys : StenoSystem) (all : List Char) :
    ∀ (ks cells : List String), cells.length = all.length →
    (∀ k ∈ ks, ∃ i, lookupOrder sys.KEY_ORDER k = some i ∧ i < all.length) →
    ∃ res, setCells sys all cells ks = .ok res ∧
      ∀ j, res[j]? =
        if ks.any (fun k => lookupOrder sys.KEY_ORDER k == some j) then
          all[j]?.map (fun g => String.mk [g])
        else cells[j]? := by
  intro ks
  induction ks with
  | nil =>
    intro cells hlen hkeys
    exact ⟨cells, rfl, fun j => by simp⟩
  | cons k0 ks ih =>
    intro cells hlen hkeys
    obtain ⟨i, hord, hilt⟩ := hkeys k0 (List.mem_cons_self k0 ks)
    have hcl : i < cells.length := by rw [hlen]; exact hilt
    have hget : all[i]? = some all[i] := List.getElem?_eq_getElem hilt
    obtain ⟨res, hok, hspec⟩ := ih (cells.set i (String.mk [all[i]]))
      (by rw [List.length_set]; exact hlen)
      (fun k hk => hkeys k (List.mem_cons_of_mem k0 hk))
    refine ⟨res, ?_, ?_⟩
    · simp only [setCells, hord, hget, if_pos hcl]
      exact hok
    · intro j
      rw [hspec j]
      by_cases hany : ks.any (fun k => lookupOrder sys.KEY_ORDER k == some j) = true
      · simp only [List.any_cons, hany, Bool.or_true, if_pos]
      · rw [Bool.not_eq_true] at hany
        simp only [List.any_cons, hany, Bool.or_false, hord, beq_some_nat]
        by_cases hij : i = j
        · subst hij
          simp [List.getElem?_set_self hcl, hget]
        · simp [hij, List.getElem?_set_ne hij]

/-- C1: for every Command Node that has children and every non-empty token
sequence whose first token equals the name of one of its children, the
dispatcher delegates: the result is that child's handling of the remaining
tokens; moreover on the three-level tree root → "configure" → "machine" →
machine name, the tokens ["configure", "machine", "A"] reach the leaf machine
setter, whose action alone executes, and repeating the same tokens is
side-effect-equivalent on the engine config. -/
theorem dispatcher_delegates_to_matching_child :
    (∀ (nm d : Option String) (cs : List Cmd)
      (ov : Option (List String → St → St × List String × Bool))
      (t : String) (ts : List String) (s : St) (ch : Cmd),
      List.find? (fun c => Cmd.name c == some t) cs = some ch →
      handleFull (Cmd.node nm d cs ov) (t :: ts) s = handleFull ch ts s)
    ∧ (∀ s : St, handleFull exampleRoot ["configure", "machine", "A"] s
        = ({ s with engineConfig := { s.engineConfig with machine_type := "A" } },
           ["Setting machine to A"], false))
    ∧ (∀ s : St,
        ((handleFull exampleRoot ["configure", "machine", "A"]
          (handleFull exampleRoot ["configure", "machine", "A"] s).1).1).engineConfig
        = (handleFull exampleRoot ["configure", "machine", "A"] s).1.engineConfig) := by
  have hdel : ∀ (nm d : Option String) (cs : List Cmd)
      (ov : Option (List String → St → St × List String × Bool))
      (t : String) (ts : List String) (s : St) (ch : Cmd),
      List.find? (fun c => Cmd.name c == some t) cs = some ch →
      handleFull (Cmd.node nm d cs ov) (t :: ts) s = handleFull ch ts s := by
    intro nm d cs ov t ts s ch h
    simp [handleFull, Cmd.children, h]
  have hrun : ∀ s : St, handleFull exampleRoot ["configure", "machine", "A"] s
      = ({ s with engineConfig := { s.engineConfig with machine_type := "A" } },
         ["Setting machine to A"], false) := fun s => rfl
  refine ⟨hdel, hrun, fun s => ?_⟩
  rw [hrun s, hrun]

/-- Witness for C1 at a concrete tree and input. -/
theorem dispatcher_delegates_to_matching_child_witness :
    handleFull (Cmd.node none none [mkSystemSetterNode "fake"] none) ["fake"] st0
      = handleFull (mkSystemSetterNode "fake") [] st0 :=
  dispatcher_delegates_to_matching_child.1 none none [mkSystemSetterNode "fake"] none
    "fake" [] st0 (mkSystemSetterNode "fake") rfl

/-- C2: for every node and every non-empty token sequence whose first token
matches no child (in particular when there are no children), the generic
handle emits exactly one "Unsupported command: " line holding the tokens
joined with single spaces — preceded only by the cosmetic name header, hence
exactly one output line when the node is unnamed — and returns false. -/
theorem generic_handle_unsupported (nm d : Option String) (cs : List Cmd)
    (t : String) (ts : List String) (s : St)
    (hnomatch : ∀ c ∈ cs, ¬ Cmd.name c = some t) :
    Cmd.handle (Cmd.node nm d cs none) (t :: ts) s
      = (s, headerLines nm ++ ["Unsupported command: " ++ joinWith " " (t :: ts)], false)
    ∧ (nm = none →
        Cmd.handle (Cmd.node nm d cs none) (t :: ts) s
          = (s, ["Unsupported command: " ++ joinWith " " (t :: ts)], false)) := by
  constructor
  · rfl
  · intro h
    subst h
    rfl

/-- Witness for C2 on a named node with no children and on the unnamed root. -/
theorem generic_handle_unsupported_witness :
    Cmd.handle (Cmd.node (some "configure") (some "configuration commands") [] none)
        ["bogus", "x"] st0
      = (st0, ["Configure", "---------", "Unsupported command: bogus x"], false)
    ∧ Cmd.handle (Cmd.node none none [] none) ["bogus", "x"] st0
      = (st0, ["Unsupported command: bogus x"], false) := by
  have h1 := generic_handle_unsupported (some "configure") (some "configuration commands")
    [] "bogus" ["x"] st0 (by simp)
  have h2 := generic_handle_unsupported none none [] "bogus" ["x"] st0 (by simp)
  exact ⟨h1.1.trans (by decide), h2.2 rfl⟩

/-- C3: for every node with children, the generic handle on the empty token
sequence emits exactly one line per child, in declared order, formatted
"name - description", preceded (when the node has a non-empty name) by the
capitalized name and a dash underline of the same length, and returns false. -/
theorem generic_handle_lists_children (nm d : Option String) (cs : List Cmd)
    (s : St) (hcs : cs ≠ []) :
    Cmd.handle (Cmd.node nm d cs none) [] s
      = (s, headerLines nm
          ++ cs.map (fun c => pyStrOpt (Cmd.name c) ++ " - " ++ pyStrOpt (Cmd.doc c)),
         false)
    ∧ (∀ n, nm = some n → ¬ n = "" →
        headerLines nm = [pyCapitalize n, dashUnderline n]
          ∧ (dashUnderline n).length = n.length) := by
  constructor
  · cases cs with
    | nil => exact absurd rfl hcs
    | cons a l => rfl
  · intro n hn hne
    subst hn
    have hemp : n.isEmpty = false := by
      cases h : n.isEmpty
      · rfl
      · exact absurd ((String.isEmpty_iff n).mp h) hne
    constructor
    · simp only [headerLines]
      rw [hemp]
      simp
    · simp [dashUnderline, String.length_mk]

/-- Witness for C3 on a named node with one child. -/
theorem generic_handle_lists_children_witness :
    Cmd.handle (Cmd.node (some "ui") (some "commands for user interface")
        [mkSystemSetterNode "A"] none) [] st0
      = (st0, ["Ui", "--", "A - sets system to A"], false) := by
  have h := generic_handle_lists_children (some "ui") (some "commands for user interface")
    [mkSystemSetterNode "A"] st0 (by simp)
  exact h.1.trans (by decide)

/-- C4: with a color argument, a valid color updates the live style and only
then persists the color under the "fg" key, with no error and result true; an
invalid color makes the error propagate with the config store (and style)
untouched; with no argument nothing happens and the result is false. -/
theorem color_validates_then_persists (valid : String → Bool) (st : ColorSt)
    (c : String) (ws : List String) :
    (valid c = true →
      colorHandle valid st (c :: ws) = (⟨some c, some c⟩, .ok true))
    ∧ (valid c = false → colorHandle valid st (c :: ws) = (st, .error ()))
    ∧ colorHandle valid st [] = (st, .ok false) := by
  refine ⟨fun h => ?_, fun h => ?_, rfl⟩ <;> simp [colorHandle, h]

/-- Witness for C4: a valid and an invalid color against a concrete validator. -/
theorem color_validates_then_persists_witness :
    colorHandle (fun s => s == "red") ⟨none, none⟩ ["red"]
      = (⟨some "red", some "red"⟩, .ok true)
    ∧ colorHandle (fun s => s == "red") ⟨none, none⟩ ["notacolor"]
      = (⟨none, none⟩, .error ())
    ∧ colorHandle (fun s => s == "red") ⟨none, none⟩ [] = (⟨none, none⟩, .ok false) := by
  have h1 := color_validates_then_persists (fun s => s == "red") ⟨none, none⟩ "red" []
  have h2 := color_validates_then_persists (fun s => s == "red") ⟨none, none⟩ "notacolor" []
  exact ⟨h1.1 (by decide), h2.2.1 (by decide), h1.2.2⟩

/-- C6: every invocation of a machine option setter built by its `__init__`
raises (`AttributeError` on `self.output`, which `__init__` never bound) and
leaves the config unchanged — instead of printing the current value, writing
the joined tokens through the setter and returning true as the claim states. -/
theorem machine_option_setter_always_raises {Cfg : Type} (d : String)
    (g : Cfg → String) (stf : Cfg → String → Cfg) (cfg : Cfg) (words : List String) :
    (mkMachineOptionSetter d g stf).handle cfg words = (cfg, .error ()) := rfl

/-- C7 counterexample: the machine setter performs its action but returns
false at a concrete input, refuting "machine setters return true". -/
theorem machine_setter_returns_false :
    (machineSetterHandle "A" [] st0).2.2 = false := rfl

/-- C7 amended: a system setter prints the target name, merges
{system_name: name} into the engine config and returns true; a machine setter
prints the target name and merges {machine_type: name} but returns false. -/
theorem setters_print_and_write_config (name : String) (ws : List String) (s : St) :
    systemSetterHandle name ws s
      = ({ s with engineConfig := { s.engineConfig with system_name := name } },
         ["Setting system to " ++ name], true)
    ∧ machineSetterHandle name ws s
      = ({ s with engineConfig := { s.engineConfig with machine_type := name } },
         ["Setting machine to " ++ name], false) :=
  ⟨rfl, rfl⟩

/-- C8: the machine command's children at tree-build time are exactly one
machine setter per registry entry, in enumeration order, named after the entry
and described "sets machine to name"; concretely, for registry entries A and B
the children are [A, B] with those descriptions. -/
theorem machine_command_children_from_registry (machines : List (String × List Cmd)) :
    ((mkMachineCommand machines).children.map Cmd.name
        = machines.map (fun p => some p.1))
    ∧ ((mkMachineCommand machines).children.map Cmd.doc
        = machines.map (fun p => some ("sets machine to " ++ p.1)))
    ∧ ((mkMachineCommand machines).children.length = machines.length)
    ∧ ((mkMachineCommand [("A", []), ("B", [])]).children.map Cmd.name
        = [some "A", some "B"])
    ∧ ((mkMachineCommand [("A", []), ("B", [])]).children.map Cmd.doc
        = [some "sets machine to A", some "sets machine to B"]) := by
  refine ⟨?_, ?_, ?_, by decide, by decide⟩ <;>
    simp [mkMachineCommand, mkMachineSetterNode, Cmd.children, Cmd.name, Cmd.doc]

/-- C9: the output toggle is an involution on the engine state; the tape and
suggestions toggles restore the toggler state and the engine config after two
invocations, under the hypothesis that the injected toggler flips: its report
negates the recorded engine value and its second report negates its first, and
it is itself an involution on its hidden state. -/
theorem toggles_are_involutions {τ : Type} (tgT tgS : τ → τ × Bool) :
    (∀ s : St, (toggleOutputHandle (toggleOutputHandle s).1).1 = s)
    ∧ (∀ (t : τ) (s : St),
        (tgT t).2 = !s.engineConfig.show_stroke_display →
        (tgT (tgT t).1).2 = !(tgT t).2 →
        (tgT (tgT t).1).1 = t →
        (toggleTapeHandle tgT (toggleTapeHandle tgT t s).1.1
          (toggleTapeHandle tgT t s).1.2).1 = (t, s))
    ∧ (∀ (t : τ) (s : St),
        (tgS t).2 = !s.engineConfig.show_suggestions_display →
        (tgS (tgS t).1).2 = !(tgS t).2 →
        (tgS (tgS t).1).1 = t →
        (toggleSuggestionsHandle tgS (toggleSuggestionsHandle tgS t s).1.1
          (toggleSuggestionsHandle tgS t s).1.2).1 = (t, s)) := by
  refine ⟨?_, ?_, ?_⟩
  · intro s
    cases s with
    | mk o c => simp [toggleOutputHandle]
  · intro t s h1 h2 h3
    cases s with
    | mk o c =>
      cases c with
      | mk a b sn mt =>
        simp [toggleTapeHandle, h1, h2, h3] at h1 ⊢
  · intro t s h1 h2 h3
    cases s with
    | mk o c =>
      cases c with
      | mk a b sn mt =>
        simp [toggleSuggestionsHandle, h1, h2, h3] at h1 ⊢

/-- Witness for C9 with the boolean negation toggler. -/
theorem toggles_are_involutions_witness :
    (toggleOutputHandle (toggleOutputHandle st0).1).1 = st0
    ∧ (toggleTapeHandle (fun b : Bool => (!b, !b))
        (toggleTapeHandle (fun b : Bool => (!b, !b)) false st0).1.1
        (toggleTapeHandle (fun b : Bool => (!b, !b)) false st0).1.2).1 = (false, st0)
    ∧ (toggleSuggestionsHandle (fun b : Bool => (!b, !b))
        (toggleSuggestionsHandle (fun b : Bool => (!b, !b)) false st0).1.1
        (toggleSuggestionsHandle (fun b : Bool => (!b, !b)) false st0).1.2).1
      = (false, st0) := by
  have h := toggles_are_involutions (τ := Bool) (fun b => (!b, !b)) (fun b => (!b, !b))
  exact ⟨h.1 st0, h.2.1 false st0 (by decide) (by decide) (by decide),
    h.2.2 false st0 (by decide) (by decide) (by decide)⟩

/-- C5: after a system-change notification has installed a layout, a stroke
whose engaged keys — the numeric indicator "#" included, when any engaged key
is in the numeric-key set — are all present in the key-order index appends
exactly one row to the display buffer: each engaged key's glyph sits at that
key's index position and every other position holds that position's blank
filler of the glyph's display width. -/
theorem tape_renders_engaged_keys (wc : Char → Nat) (sys : StenoSystem)
    (st : TapeState) (stroke : List String)
    (hL : st.layout = some (computeLayout wc sys))
    (hkeys : keysKnown sys (allKeysOf sys).length
      (extendNum sys.NUMBER_VALUES stroke) = true) :
    on_stroked sys st stroke
      = ({ st with buffer := st.buffer
            ++ [String.join (expectedRow wc sys (extendNum sys.NUMBER_VALUES stroke))] },
         .ok ()) := by
  obtain ⟨lo, w, buf⟩ := st
  replace hL : lo = some (computeLayout wc sys) := hL
  subst hL
  have hflen : (computeLayout wc sys).all_keys_filler.length
      = (computeLayout wc sys).all_keys.length := by
    simp [computeLayout]
  obtain ⟨res, hok, hspec⟩ := setCells_ok_spec sys (computeLayout wc sys).all_keys
    (extendNum sys.NUMBER_VALUES stroke) (computeLayout wc sys).all_keys_filler
    hflen (keysKnown_spec hkeys)
  have hnum : (computeLayout wc sys).numbers = sys.NUMBER_VALUES := rfl
  have hres : res = expectedRow wc sys (extendNum sys.NUMBER_VALUES stroke) := by
    have hreslen : res.length = (allKeysOf sys).length := by
      rw [setCells_ok_length sys _ _ _ _ hok]
      simpa using hflen
    apply List.ext_getElem
    · simp [expectedRow, hreslen]
    · intro n h1 h2
      have hn : n < (allKeysOf sys).length := hreslen ▸ h1
      have hnf : n < (computeLayout wc sys).all_keys_filler.length := by
        rw [hflen]; exact hn

      have h5 := hspec n
      have hak : (computeLayout wc sys).all_keys = allKeysOf sys := rfl
      rw [hak] at h5
      rw [List.getElem?_eq_getElem h1, List.getElem?_eq_getElem hn,
        List.getElem?_eq_getElem hnf] at h5
      simp only [expectedRow, List.getElem_map, List.getElem_range]
      rw [List.getD_eq_getElem?_getD, List.getElem?_eq_getElem hn,
        List.getD_eq_getElem?_getD, List.getElem?_eq_getElem hnf]
      by_cases hc : ((extendNum sys.NUMBER_VALUES stroke).any
          (fun k => lookupOrder sys.KEY_ORDER k == some n)) = true
      · rw [if_pos hc] at h5
        rw [if_pos hc]
        simp only [Option.getD_some]
        simpa using h5
      · rw [Bool.not_eq_true] at hc
        rw [hc] at h5
        rw [hc]
        simpa using h5
  rw [← hres]
  simp only [on_stroked, hnum, hok]

/-- C10: with a layout installed, a stroke containing a key that the key-order
index does not know (after the possible addition of the numeric indicator)
makes `on_stroked` raise a lookup error with the display buffer and the layout
state unchanged: no row, not even a partial one, is appended. -/
theorem tape_unknown_key_leaves_state_unchanged (sys : StenoSystem)
    (st : TapeState) (stroke : List String) (L : TapeLayout)
    (hL : st.layout = some L)
    (hmiss : ∃ k ∈ extendNum L.numbers stroke, lookupOrder sys.KEY_ORDER k = none) :
    on_stroked sys st stroke = (st, .error ()) := by
  obtain ⟨lo, w, buf⟩ := st
  replace hL : lo = some L := hL
  subst hL
  simp only [on_stroked,
    setCells_error_of_missing sys L.all_keys (extendNum L.numbers stroke)
      L.all_keys_filler hmiss]

/-- The example system of C5: keys `["S-", "T-", "#", "-T"]` in that index
order; `"#"` doubles as the numeric-indicator entry of the numeric-key set. -/
def exSys : StenoSystem :=
  { KEYS := ["S-", "T-", "#", "-T"]
  , NUMBER_VALUES := ["#"]
  , KEY_ORDER := [("S-", 0), ("T-", 1), ("#", 2), ("-T", 3)] }

/-- The example tape after the system-change notification installed `exSys`
(every glyph one column wide). -/
def exTapeSt : TapeState :=
  on_config_changed (fun _ => 1) exSys
    { layout := none, width := none, buffer := [] } ["system_name"]

/-- Witness for C5: stroking `["S-", "#"]` on the example system renders the
row `"S # "`. -/
theorem tape_renders_engaged_keys_witness :
    on_stroked exSys exTapeSt ["S-", "#"]
      = ({ exTapeSt with buffer := ["S # "] }, .ok ()) := by
  have h := tape_renders_engaged_keys (fun _ => 1) exSys exTapeSt ["S-", "#"]
    (by decide) (by decide)
  exact h.trans rfl

/-- Witness for C10: stroking the unknown key `["Z-"]` on the example system
errors and leaves the tape untouched. -/
theorem tape_unknown_key_leaves_state_unchanged_witness :
    on_stroked exSys exTapeSt ["Z-"] = (exTapeSt, .error ()) :=
  tape_unknown_key_leaves_state_unchanged exSys exTapeSt ["Z-"]
    (computeLayout (fun _ => 1) exSys) (by decide) (by decide)

end PloverConsoleUi
